import Mathlib

/-!
Verification of the moving-average-crossover trading engine
(`app/trading_strategy.py`, class `MovingAverageCrossoverStrategy`).

Modelling choices:
* Python floats are modelled by rationals `ℚ`; the float value `nan`
  produced by pandas for an unfilled rolling window is modelled by
  `Option ℚ` with `none` playing the role of `nan`.  In Python every
  comparison against `nan` is `False`; the helpers `optLe`, `optGe`
  reproduce that for the two comparisons the code performs on possibly
  undefined previous averages.
* `pandas.Series.rolling(window).mean()` keeps a running sum: the mean at
  index `i` is the difference of two prefix sums divided by the window.
  The validation performed by pandas on the `window` argument (raise
  `ValueError` for a negative window, accept `0` and produce an all-`nan`
  column) is modelled by `rollingMeanChecked`.
* `numpy.std` is the population standard deviation, a real square root,
  so the Sharpe-ratio computation lives in `ℝ`; everything else is
  executable over `ℚ`.
* Timestamps never influence the computation, so `datetime` fields are
  modelled by an abstract `ℕ` tag.
-/

/-- A stored ticker record, reduced to the two fields the strategy reads:
`data.datetime` and `data.close` (`generate_signals` touches no other
column). -/
structure TickerData where
  datetime : ℕ
  close : ℚ
  deriving DecidableEq, Repr

/-- Schema `MovingAverageSignal`: timestamp, price, the two (possibly
undefined) rolling averages and a tag `"BUY"`, `"SELL"` or `"HOLD"`. -/
structure MovingAverageSignal where
  datetime : ℕ
  price : ℚ
  short_ma : Option ℚ
  long_ma : Option ℚ
  signal : String
  deriving DecidableEq, Repr

/-- The strategy object: `__init__(short_window=5, long_window=20)`. -/
structure MovingAverageCrossoverStrategy where
  short_window : ℕ
  long_window : ℕ
  deriving DecidableEq, Repr

/-- The default strategy parameters from `__init__`. -/
def defaultStrategy : MovingAverageCrossoverStrategy := ⟨5, 20⟩

/-- Rolling mean of `prices` with window `window`, as computed by
`df['price'].rolling(window=w).mean()` with the default
`min_periods = w`: entry `i` is defined iff the window has filled
(`window ≤ i + 1`, and `window` is nonzero), and pandas keeps a running
sum, so the value is the difference of the prefix sums over the first
`i + 1` and the first `i + 1 - window` prices, divided by `window`. -/
def rollingMean (prices : List ℚ) (window : ℕ) : List (Option ℚ) :=
  (List.range prices.length).map fun i =>
    if 0 < window ∧ window ≤ i + 1 then
      some (((prices.take (i + 1)).sum - (prices.take (i + 1 - window)).sum) / window)
    else
      none

/-- The validation pandas performs on the `window` argument before any
computation: a negative window raises
`ValueError("window must be an integer 0 or greater")`; `window = 0` is
accepted (and yields an all-`nan` column, because no window of size `0`
ever reaches `min_periods` observations). -/
def rollingMeanChecked (prices : List ℚ) (window : ℤ) : Except String (List (Option ℚ)) :=
  if window < 0 then
    Except.error "window must be an integer 0 or greater"
  else
    Except.ok (rollingMean prices window.toNat)

/-- Method `calculate_moving_averages`: the short and the long rolling
mean columns of the price series. -/
def calculate_moving_averages (strat : MovingAverageCrossoverStrategy)
    (prices : List ℚ) : List (Option ℚ) × List (Option ℚ) :=
  (rollingMean prices strat.short_window, rollingMean prices strat.long_window)

/-- Float comparison `a <= b` where either side may be `nan` (modelled by
`none`): any comparison involving `nan` is `False` in Python. -/
def optLe : Option ℚ → Option ℚ → Bool
  | some a, some b => decide (a ≤ b)
  | _, _ => false

/-- Float comparison `a >= b` where either side may be `nan`. -/
def optGe : Option ℚ → Option ℚ → Bool
  | some a, some b => decide (b ≤ a)
  | _, _ => false

/-- The tag chosen by the loop body of `generate_signals` at index `i`:
`"HOLD"` unless `i > 0` and both current averages are defined; then
`"BUY"` on `short > long and prev_short <= prev_long`, else `"SELL"` on
`short < long and prev_short >= prev_long`, else `"HOLD"`.  The two
comparisons against the previous averages are float comparisons that may
involve `nan`, hence `optLe` / `optGe`. -/
def signalTag (i : ℕ) (short long prevShort prevLong : Option ℚ) : String :=
  if 0 < i ∧ short.isSome ∧ long.isSome then
    if short.getD 0 > long.getD 0 ∧ optLe prevShort prevLong then "BUY"
    else if short.getD 0 < long.getD 0 ∧ optGe prevShort prevLong then "SELL"
    else "HOLD"
  else "HOLD"

/-- The default signal record, used only as the junk value of `List.getD`
at indices that are always in bounds where it is read. -/
def dummySignal : MovingAverageSignal := ⟨0, 0, none, none, "HOLD"⟩

/-- Method `generate_signals`: empty output when fewer than `long_window`
points are stored; otherwise one `MovingAverageSignal` per input point,
tagged by `signalTag`.  The previous averages handed to `signalTag` are
only read under its `0 < i` guard, so the junk value at `i = 0` (where
`i - 1 = 0` in `ℕ`) is never compared. -/
def generate_signals (strat : MovingAverageCrossoverStrategy)
    (ticker_data : List TickerData) : List MovingAverageSignal :=
  if ticker_data.length < strat.long_window then []
  else
    let prices := ticker_data.map TickerData.close
    let dates := ticker_data.map TickerData.datetime
    let mas := calculate_moving_averages strat prices
    (List.range ticker_data.length).map fun i =>
      { datetime := dates.getD i 0
        price := prices.getD i 0
        short_ma := mas.1.getD i none
        long_ma := mas.2.getD i none
        signal := signalTag i (mas.1.getD i none) (mas.2.getD i none)
            (if i = 0 then none else mas.1.getD (i - 1) none)
            (if i = 0 then none else mas.2.getD (i - 1) none) }

/-- The mutable locals of the backtest loop in `calculate_performance`:
`position` (`false` = flat, `true` = long), `buy_price`, `total_returns`,
`trades`, `winning_trades` and the `portfolio_values` trajectory. -/
structure SimState where
  position : Bool
  buy_price : ℚ
  total_returns : ℚ
  trades : ℕ
  winning_trades : ℕ
  portfolio_values : List ℚ
  deriving DecidableEq, Repr

/-- The initial loop state: flat, `buy_price = 0.0`, zero counters and a
trajectory seeded with `$10,000`. -/
def initState : SimState := ⟨false, 0, 0, 0, 0, [10000]⟩

/-- One iteration of the backtest loop: a `BUY` while flat opens the
position, records the entry price and counts a trade; a `SELL` while long
realises `return_pct = (price - buy_price) / buy_price`, accumulates it,
counts a win when positive, goes flat and appends
`portfolio_values[-1] * (1 + return_pct)`; every other signal is ignored. -/
def simStep (st : SimState) (s : MovingAverageSignal) : SimState :=
  if s.signal = "BUY" ∧ st.position = false then
    { st with position := true, buy_price := s.price, trades := st.trades + 1 }
  else if s.signal = "SELL" ∧ st.position = true then
    let return_pct := (s.price - st.buy_price) / st.buy_price
    { st with
      total_returns := st.total_returns + return_pct
      winning_trades := if 0 < return_pct then st.winning_trades + 1 else st.winning_trades
      position := false
      portfolio_values :=
        st.portfolio_values ++ [st.portfolio_values.getLastD 0 * (1 + return_pct)] }
  else
    st

/-- The backtest loop of `calculate_performance` over a signal list. -/
def simulate (signals : List MovingAverageSignal) : SimState :=
  signals.foldl simStep initState

/-- One iteration of the drawdown loop: lift the running peak to the
current value if it is higher, then compare `(peak - value) / peak`
against the running maximum drawdown. -/
def ddStep (st : ℚ × ℚ) (value : ℚ) : ℚ × ℚ :=
  let peak := if st.1 < value then value else st.1
  let drawdown := (peak - value) / peak
  (peak, if st.2 < drawdown then drawdown else st.2)

/-- The maximum-drawdown pass of `calculate_performance`: peak seeded
with `portfolio_values[0]`, then one `ddStep` per trajectory entry (the
first entry is compared against itself, harmlessly). -/
def maxDrawdown (pv : List ℚ) : ℚ :=
  (pv.foldl ddStep (pv.headD 0, 0)).2

/-- The per-step returns loop feeding the Sharpe ratio:
`(pv[i] - pv[i-1]) / pv[i-1]` for `i = 1 .. len(pv) - 1`. -/
def stepReturns (pv : List ℚ) : List ℚ :=
  (List.range (pv.length - 1)).map fun i =>
    (pv.getD (i + 1) 0 - pv.getD i 0) / pv.getD i 0

/-- `numpy.mean`: sum divided by length (division by zero yields `0` in
`ℚ`, matching the guard structure of the caller, which never takes the
mean of an empty list). -/
def npMean (xs : List ℚ) : ℚ := xs.sum / xs.length

/-- The square of `numpy.std`: the population variance, mean of the
squared deviations from the mean. -/
def npVar (xs : List ℚ) : ℚ :=
  (xs.map fun x => (x - npMean xs) ^ 2).sum / xs.length

/-- `numpy.std`: the population standard deviation, the real square root
of the population variance. -/
noncomputable def npStd (xs : List ℚ) : ℝ := Real.sqrt ((npVar xs : ℚ) : ℝ)

/-- The Sharpe-ratio branch of `calculate_performance`: `0` unless the
trajectory has more than one entry and the step-return list is nonempty
and its standard deviation is positive, in which case it is
`np.mean(returns) / np.std(returns)`. -/
noncomputable def sharpeCode (pv : List ℚ) : ℝ :=
  if 1 < pv.length then
    if stepReturns pv = [] then 0
    else if 0 < npStd (stepReturns pv) then
      ((npMean (stepReturns pv) : ℚ) : ℝ) / npStd (stepReturns pv)
    else 0
  else 0

/-- Schema `StrategyPerformance` (the `sharpe_ratio` field of the schema
is called `sharpe` here). -/
structure StrategyPerformance where
  total_returns : ℚ
  total_trades : ℕ
  win_rate : ℚ
  max_drawdown : ℚ
  sharpe : ℝ
  signals : List MovingAverageSignal

/-- Method `calculate_performance`: all-zero summary on an empty signal
list, otherwise the backtest loop followed by the derived metrics
(returns and drawdown reported as percentages). -/
noncomputable def calculate_performance (signals : List MovingAverageSignal) :
    StrategyPerformance :=
  if signals = [] then ⟨0, 0, 0, 0, 0, []⟩
  else
    let st := simulate signals
    { total_returns := st.total_returns * 100
      total_trades := st.trades
      win_rate := if 0 < st.trades then (st.winning_trades : ℚ) / st.trades * 100 else 0
      max_drawdown := maxDrawdown st.portfolio_values * 100
      sharpe := sharpeCode st.portfolio_values
      signals := signals }

/-! Spec-side definitions, written from the specification's words, to be
compared with the embedded code above. -/

/-- Spec-side: the trailing window of `window` prices ending at index
`i` inclusive, `prices[i - window + 1 .. i]`. -/
def windowSlice (prices : List ℚ) (window i : ℕ) : List ℚ :=
  (prices.drop (i + 1 - window)).take window

/-- Spec-side: the completed `BUY → SELL` round trips of a signal list as
`(entry price, exit price)` pairs, extracted by the FLAT/LONG state
machine the specification describes (first argument: currently long;
second: entry price of the open position). -/
def tradesFrom (position : Bool) (buy : ℚ) : List MovingAverageSignal → List (ℚ × ℚ)
  | [] => []
  | s :: rest =>
    if s.signal = "BUY" ∧ position = false then tradesFrom true s.price rest
    else if s.signal = "SELL" ∧ position = true then (buy, s.price) :: tradesFrom false buy rest
    else tradesFrom position buy rest

/-- Spec-side: the completed trades of a signal list, starting flat. -/
def completedTrades (signals : List MovingAverageSignal) : List (ℚ × ℚ) :=
  tradesFrom false 0 signals

/-- Spec-side: the fractional return of one completed trade,
`(exit - entry) / entry`. -/
def tradeReturn (t : ℚ × ℚ) : ℚ := (t.2 - t.1) / t.1

/-- Spec-side: per-step fractional changes between consecutive trajectory
entries. -/
def stepReturnsSpec (pv : List ℚ) : List ℚ :=
  List.zipWith (fun a b => (b - a) / a) pv pv.tail

/-- Spec-side Sharpe ratio: `0` with fewer than two trajectory entries,
else mean over population standard deviation of the step returns, `0`
when that standard deviation is zero. -/
noncomputable def sharpeSpec (pv : List ℚ) : ℝ :=
  if pv.length < 2 then 0
  else if npStd (stepReturnsSpec pv) = 0 then 0
  else ((npMean (stepReturnsSpec pv) : ℚ) : ℝ) / npStd (stepReturnsSpec pv)

/-! Helper lemmas about indexing the embedded definitions. -/

lemma mapRange_getD {α : Type} (n i : ℕ) (f : ℕ → α) (d : α) (h : i < n) :
    ((List.range n).map f).getD i d = f i := by
  simp [List.getD_eq_getElem?_getD, List.getElem?_map, List.getElem?_range, h]

lemma rollingMean_length (prices : List ℚ) (window : ℕ) :
    (rollingMean prices window).length = prices.length := by
  simp [rollingMean]

lemma rollingMean_getD (prices : List ℚ) (window i : ℕ) (h : i < prices.length) :
    (rollingMean prices window).getD i none =
      if 0 < window ∧ window ≤ i + 1 then
        some (((prices.take (i + 1)).sum - (prices.take (i + 1 - window)).sum) / window)
      else none := by
  unfold rollingMean
  exact mapRange_getD _ _ _ _ h

lemma take_sub_sum (prices : List ℚ) (window i : ℕ) (hw : window ≤ i + 1) :
    (prices.take (i + 1)).sum - (prices.take (i + 1 - window)).sum =
      (windowSlice prices window i).sum := by
  have h : i + 1 - window + window = i + 1 := Nat.sub_add_cancel hw
  have hsplit : prices.take (i + 1) =
      prices.take (i + 1 - window) ++ (prices.drop (i + 1 - window)).take window := by
    rw [← List.take_add, h]
  rw [hsplit, List.sum_append, windowSlice]
  ring

lemma windowSlice_length (prices : List ℚ) (window i : ℕ) (hw : window ≤ i + 1)
    (hi : i < prices.length) :
    (windowSlice prices window i).length = window := by
  simp only [windowSlice, List.length_take, List.length_drop]
  omega

lemma generate_signals_of_lt (strat : MovingAverageCrossoverStrategy)
    (td : List TickerData) (h : td.length < strat.long_window) :
    generate_signals strat td = [] := by
  simp [generate_signals, h]

lemma generate_signals_eq (strat : MovingAverageCrossoverStrategy)
    (td : List TickerData) (h : strat.long_window ≤ td.length) :
    generate_signals strat td =
      (List.range td.length).map (fun i =>
        { datetime := (td.map TickerData.datetime).getD i 0
          price := (td.map TickerData.close).getD i 0
          short_ma := (rollingMean (td.map TickerData.close) strat.short_window).getD i none
          long_ma := (rollingMean (td.map TickerData.close) strat.long_window).getD i none
          signal := signalTag i
              ((rollingMean (td.map TickerData.close) strat.short_window).getD i none)
              ((rollingMean (td.map TickerData.close) strat.long_window).getD i none)
              (if i = 0 then none
                else (rollingMean (td.map TickerData.close) strat.short_window).getD (i - 1) none)
              (if i = 0 then none
                else (rollingMean (td.map TickerData.close) strat.long_window).getD (i - 1) none) }) := by
  simp [generate_signals, Nat.not_lt.mpr h, calculate_moving_averages]

lemma generate_signals_length (strat : MovingAverageCrossoverStrategy)
    (td : List TickerData) (h : strat.long_window ≤ td.length) :
    (generate_signals strat td).length = td.length := by
  rw [generate_signals_eq strat td h]
  simp

lemma generate_signals_getD (strat : MovingAverageCrossoverStrategy)
    (td : List TickerData) (h : strat.long_window ≤ td.length) (i : ℕ)
    (hi : i < td.length) :
    (generate_signals strat td).getD i dummySignal =
      { datetime := (td.map TickerData.datetime).getD i 0
        price := (td.map TickerData.close).getD i 0
        short_ma := (rollingMean (td.map TickerData.close) strat.short_window).getD i none
        long_ma := (rollingMean (td.map TickerData.close) strat.long_window).getD i none
        signal := signalTag i
            ((rollingMean (td.map TickerData.close) strat.short_window).getD i none)
            ((rollingMean (td.map TickerData.close) strat.long_window).getD i none)
            (if i = 0 then none
              else (rollingMean (td.map TickerData.close) strat.short_window).getD (i - 1) none)
            (if i = 0 then none
              else (rollingMean (td.map TickerData.close) strat.long_window).getD (i - 1) none) } := by
  rw [generate_signals_eq strat td h]
  exact mapRange_getD _ _ _ _ hi

lemma optLe_iff (ps pl : Option ℚ) :
    optLe ps pl = true ↔ ∃ a' b', ps = some a' ∧ pl = some b' ∧ a' ≤ b' := by
  cases ps <;> cases pl <;> simp [optLe]

lemma optGe_iff (ps pl : Option ℚ) :
    optGe ps pl = true ↔ ∃ a' b', ps = some a' ∧ pl = some b' ∧ b' ≤ a' := by
  cases ps <;> cases pl <;> simp [optGe]

lemma signalTag_eq_buy (i : ℕ) (s l ps pl : Option ℚ) :
    signalTag i s l ps pl = "BUY" ↔
      0 < i ∧ ∃ a b a' b', s = some a ∧ l = some b ∧ ps = some a' ∧ pl = some b' ∧
        b < a ∧ a' ≤ b' := by
  constructor
  · intro h
    unfold signalTag at h
    by_cases hg : 0 < i ∧ s.isSome ∧ l.isSome
    · rw [if_pos hg] at h
      obtain ⟨hi, hs, hl⟩ := hg
      obtain ⟨a, rfl⟩ := Option.isSome_iff_exists.mp hs
      obtain ⟨b, rfl⟩ := Option.isSome_iff_exists.mp hl
      by_cases hb : (some a).getD 0 > (some b).getD 0 ∧ optLe ps pl
      · obtain ⟨hab, hle⟩ := hb
        obtain ⟨a', b', rfl, rfl, hab'⟩ := (optLe_iff ps pl).mp hle
        exact ⟨hi, a, b, a', b', rfl, rfl, rfl, rfl, by simpa using hab, hab'⟩
      · rw [if_neg hb] at h
        split_ifs at h <;> simp_all
    · rw [if_neg hg] at h
      simp at h
  · rintro ⟨hi, a, b, a', b', rfl, rfl, rfl, rfl, hab, hle⟩
    unfold signalTag
    rw [if_pos ⟨hi, rfl, rfl⟩]
    rw [if_pos ⟨by simpa using hab, (optLe_iff _ _).mpr ⟨a', b', rfl, rfl, hle⟩⟩]

lemma signalTag_eq_sell (i : ℕ) (s l ps pl : Option ℚ) :
    signalTag i s l ps pl = "SELL" ↔
      0 < i ∧ ∃ a b a' b', s = some a ∧ l = some b ∧ ps = some a' ∧ pl = some b' ∧
        a < b ∧ b' ≤ a' := by
  constructor
  · intro h
    unfold signalTag at h
    by_cases hg : 0 < i ∧ s.isSome ∧ l.isSome
    · rw [if_pos hg] at h
      obtain ⟨hi, hs, hl⟩ := hg
      obtain ⟨a, rfl⟩ := Option.isSome_iff_exists.mp hs
      obtain ⟨b, rfl⟩ := Option.isSome_iff_exists.mp hl
      by_cases hb : (some a).getD 0 > (some b).getD 0 ∧ optLe ps pl
      · rw [if_pos hb] at h
        simp at h
      · rw [if_neg hb] at h
        by_cases hc : (some a).getD 0 < (some b).getD 0 ∧ optGe ps pl
        · obtain ⟨hab, hge⟩ := hc
          obtain ⟨a', b', rfl, rfl, hab'⟩ := (optGe_iff ps pl).mp hge
          exact ⟨hi, a, b, a', b', rfl, rfl, rfl, rfl, by simpa using hab, hab'⟩
        · rw [if_neg hc] at h
          simp at h
    · rw [if_neg hg] at h
      simp at h
  · rintro ⟨hi, a, b, a', b', rfl, rfl, rfl, rfl, hab, hge⟩
    unfold signalTag
    rw [if_pos ⟨hi, rfl, rfl⟩]
    rw [if_neg (by rintro ⟨h1, _⟩; simp at h1; linarith)]
    rw [if_pos ⟨by simpa using hab, (optGe_iff _ _).mpr ⟨a', b', rfl, rfl, hge⟩⟩]

lemma signalTag_hold_of (i : ℕ) (s l ps pl : Option ℚ)
    (h : i = 0 ∨ s = none ∨ l = none ∨ ps = none ∨ pl = none) :
    signalTag i s l ps pl = "HOLD" := by
  rcases h with rfl | rfl | rfl | rfl | rfl
  · simp [signalTag]
  · simp [signalTag]
  · simp [signalTag]
  · cases pl <;> simp [signalTag, optLe, optGe]
  · cases ps <;> simp [signalTag, optLe, optGe]

/-! Helper lemmas about the backtest loop. -/

lemma simStep_buy (st : SimState) (s : MovingAverageSignal)
    (h : s.signal = "BUY" ∧ st.position = false) :
    simStep st s =
      { st with position := true, buy_price := s.price, trades := st.trades + 1 } := by
  unfold simStep
  rw [if_pos h]

lemma simStep_sell (st : SimState) (s : MovingAverageSignal)
    (h1 : ¬(s.signal = "BUY" ∧ st.position = false))
    (h2 : s.signal = "SELL" ∧ st.position = true) :
    simStep st s =
      { st with
        total_returns := st.total_returns + (s.price - st.buy_price) / st.buy_price
        winning_trades :=
          if 0 < (s.price - st.buy_price) / st.buy_price then st.winning_trades + 1
          else st.winning_trades
        position := false
        portfolio_values :=
          st.portfolio_values ++
            [st.portfolio_values.getLastD 0 * (1 + (s.price - st.buy_price) / st.buy_price)] } := by
  unfold simStep
  rw [if_neg h1, if_pos h2]

lemma simStep_skip (st : SimState) (s : MovingAverageSignal)
    (h1 : ¬(s.signal = "BUY" ∧ st.position = false))
    (h2 : ¬(s.signal = "SELL" ∧ st.position = true)) :
    simStep st s = st := by
  unfold simStep
  rw [if_neg h1, if_neg h2]

lemma tradesFrom_skip (position : Bool) (buy : ℚ) (s : MovingAverageSignal)
    (rest : List MovingAverageSignal)
    (h1 : ¬(s.signal = "BUY" ∧ position = false))
    (h2 : ¬(s.signal = "SELL" ∧ position = true)) :
    tradesFrom position buy (s :: rest) = tradesFrom position buy rest := by
  conv_lhs => simp only [tradesFrom]
  rw [if_neg h1, if_neg h2]

lemma foldl_simStep_total_returns (sigs : List MovingAverageSignal) :
    ∀ st : SimState,
      (sigs.foldl simStep st).total_returns =
        st.total_returns + ((tradesFrom st.position st.buy_price sigs).map tradeReturn).sum := by
  induction sigs with
  | nil => intro st; simp [tradesFrom]
  | cons s rest ih =>
    intro st
    by_cases h1 : s.signal = "BUY" ∧ st.position = false
    · rw [List.foldl_cons, simStep_buy st s h1, ih]
      simp [tradesFrom, h1.1, h1.2]
    · by_cases h2 : s.signal = "SELL" ∧ st.position = true
      · rw [List.foldl_cons, simStep_sell st s h1 h2, ih]
        simp only [tradesFrom, h2.1, h2.2]
        simp [tradeReturn, h1, h2.1, h2.2]
        ring
      · rw [List.foldl_cons, simStep_skip st s h1 h2, ih, tradesFrom_skip _ _ _ _ h1 h2]

lemma foldl_simStep_winning (sigs : List MovingAverageSignal) :
    ∀ st : SimState,
      (sigs.foldl simStep st).winning_trades =
        st.winning_trades +
          ((tradesFrom st.position st.buy_price sigs).filter
            (fun t => decide (0 < tradeReturn t))).length := by
  induction sigs with
  | nil => intro st; simp [tradesFrom]
  | cons s rest ih =>
    intro st
    by_cases h1 : s.signal = "BUY" ∧ st.position = false
    · rw [List.foldl_cons, simStep_buy st s h1, ih]
      simp [tradesFrom, h1.1, h1.2]
    · by_cases h2 : s.signal = "SELL" ∧ st.position = true
      · rw [List.foldl_cons, simStep_sell st s h1 h2, ih]
        simp only [tradesFrom, h2.1, h2.2]
        by_cases hw : 0 < (s.price - st.buy_price) / st.buy_price
        · simp [tradeReturn, h1, h2.1, h2.2, hw, List.filter]
          ring
        · simp [tradeReturn, h1, h2.1, h2.2, hw, List.filter]
      · rw [List.foldl_cons, simStep_skip st s h1 h2, ih, tradesFrom_skip _ _ _ _ h1 h2]

lemma calculate_performance_def (sigs : List MovingAverageSignal) (h : ¬sigs = []) :
    calculate_performance sigs =
      { total_returns := (simulate sigs).total_returns * 100
        total_trades := (simulate sigs).trades
        win_rate :=
          if 0 < (simulate sigs).trades then
            ((simulate sigs).winning_trades : ℚ) / (simulate sigs).trades * 100
          else 0
        max_drawdown := maxDrawdown (simulate sigs).portfolio_values * 100
        sharpe := sharpeCode (simulate sigs).portfolio_values
        signals := sigs } := by
  unfold calculate_performance
  rw [if_neg h]

lemma getLastD_pos (l : List ℚ) (hne : l ≠ []) (hpos : ∀ v ∈ l, 0 < v) :
    0 < l.getLastD 0 := by
  rw [List.getLastD_eq_getLast?, List.getLast?_eq_getLast l hne]
  exact hpos _ (List.getLast_mem hne)

lemma foldl_simStep_pv (sigs : List MovingAverageSignal) :
    ∀ st : SimState, (∀ x ∈ sigs, 0 < x.price) →
      (st.position = true → 0 < st.buy_price) → st.portfolio_values ≠ [] →
      (∀ v ∈ st.portfolio_values, 0 < v) →
      (sigs.foldl simStep st).portfolio_values ≠ [] ∧
        ∀ v ∈ (sigs.foldl simStep st).portfolio_values, 0 < v := by
  induction sigs with
  | nil => intro st _ _ hne hpv; exact ⟨hne, hpv⟩
  | cons s rest ih =>
    intro st hpos hbuy hne hpv
    have hs : 0 < s.price := hpos s (by simp)
    have hrest : ∀ x ∈ rest, 0 < x.price := fun x hx => hpos x (List.mem_cons_of_mem s hx)
    by_cases h1 : s.signal = "BUY" ∧ st.position = false
    · rw [List.foldl_cons, simStep_buy st s h1]
      exact ih _ hrest (fun _ => hs) hne hpv
    · by_cases h2 : s.signal = "SELL" ∧ st.position = true
      · rw [List.foldl_cons, simStep_sell st s h1 h2]
        have hb : 0 < st.buy_price := hbuy h2.2
        have hfac : (1 : ℚ) + (s.price - st.buy_price) / st.buy_price = s.price / st.buy_price := by
          field_simp
        have hlast : 0 < st.portfolio_values.getLastD 0 := getLastD_pos _ hne hpv
        have hnew : 0 < st.portfolio_values.getLastD 0 * (1 + (s.price - st.buy_price) / st.buy_price) := by
          rw [hfac]
          exact mul_pos hlast (div_pos hs hb)
        apply ih _ hrest (by simp)
        · simp
        · intro v hv
          rcases List.mem_append.mp hv with hv | hv
          · exact hpv v hv
          · rw [List.mem_singleton] at hv
            rw [hv]
            exact hnew
      · rw [List.foldl_cons, simStep_skip st s h1 h2]
        exact ih _ hrest hbuy hne hpv

lemma foldl_ddStep_bounds (l : List ℚ) :
    ∀ peak dd : ℚ, 0 < peak → 0 ≤ dd → dd < 1 → (∀ v ∈ l, 0 < v) →
      0 < (l.foldl ddStep (peak, dd)).1 ∧
        0 ≤ (l.foldl ddStep (peak, dd)).2 ∧ (l.foldl ddStep (peak, dd)).2 < 1 := by
  induction l with
  | nil => intro peak dd hp hd0 hd1 _; exact ⟨hp, hd0, hd1⟩
  | cons v rest ih =>
    intro peak dd hp hd0 hd1 hpos
    have hv : 0 < v := hpos v (by simp)
    have hrest : ∀ x ∈ rest, 0 < x := fun x hx => hpos x (List.mem_cons_of_mem v hx)
    rw [List.foldl_cons]
    show 0 < (rest.foldl ddStep (ddStep (peak, dd) v)).1 ∧ _
    have hdd : ddStep (peak, dd) v =
        ((if peak < v then v else peak),
          if dd < ((if peak < v then v else peak) - v) / (if peak < v then v else peak) then
            ((if peak < v then v else peak) - v) / (if peak < v then v else peak)
          else dd) := rfl
    rw [hdd]
    by_cases hc : peak < v
    · rw [if_pos hc]
      have h0 : (v - v) / v = 0 := by simp
      rw [h0, if_neg (not_lt.mpr hd0)]
      exact ih v dd hv hd0 hd1 hrest
    · rw [if_neg hc]
      have hge : v ≤ peak := le_of_not_lt hc
      have hq0 : 0 ≤ (peak - v) / peak := div_nonneg (by linarith) hp.le
      have hq1 : (peak - v) / peak < 1 := by
        rw [div_lt_one hp]
        linarith
      by_cases hd : dd < (peak - v) / peak
      · rw [if_pos hd]
        exact ih peak _ hp hq0 hq1 hrest
      · rw [if_neg hd]
        exact ih peak dd hp hd0 hd1 hrest

lemma stepReturnsSpec_length (pv : List ℚ) :
    (stepReturnsSpec pv).length = pv.length - 1 := by
  simp [stepReturnsSpec]

lemma stepReturns_eq_spec (pv : List ℚ) : stepReturns pv = stepReturnsSpec pv := by
  apply List.ext_getElem
  · simp [stepReturns, stepReturnsSpec]
  · intro i h1 h2
    have hi : i < pv.length - 1 := by
      simpa [stepReturns] using h1
    have hi1 : i + 1 < pv.length := by omega
    have hi0 : i < pv.length := by omega
    have hit : i < pv.tail.length := by
      simp [List.length_tail]
      omega
    simp only [stepReturns, stepReturnsSpec, List.getElem_map, List.getElem_range,
      List.getElem_zipWith, List.getElem_tail]
    rw [List.getD_eq_getElem pv 0 hi1, List.getD_eq_getElem pv 0 hi0]

lemma npStd_nonneg (xs : List ℚ) : 0 ≤ npStd xs := by
  unfold npStd
  exact Real.sqrt_nonneg _

lemma sharpeCode_eq_sharpeSpec (pv : List ℚ) : sharpeCode pv = sharpeSpec pv := by
  unfold sharpeCode sharpeSpec
  rw [stepReturns_eq_spec]
  by_cases h : 1 < pv.length
  · rw [if_pos h, if_neg (by omega : ¬pv.length < 2)]
    have hne : ¬stepReturnsSpec pv = [] := by
      intro hcon
      have := stepReturnsSpec_length pv
      rw [hcon] at this
      simp at this
      omega
    rw [if_neg hne]
    by_cases hz : npStd (stepReturnsSpec pv) = 0
    · rw [if_neg (by rw [hz]; exact lt_irrefl 0), if_pos hz]
    · have hpos : 0 < npStd (stepReturnsSpec pv) :=
        lt_of_le_of_ne (npStd_nonneg _) (Ne.symm hz)
      rw [if_pos hpos, if_neg hz]
  · rw [if_neg h, if_pos (by omega : pv.length < 2)]

/-! The claims. -/

/-- C3: for every price sequence and positive window, the rolling average
at index `i` is undefined for `i < window - 1` (equivalently
`i + 1 < window`), and for `i ≥ window - 1` it is the arithmetic mean of
the trailing slice `prices[i - window + 1 .. i]` (which has exactly
`window` elements); in particular when the sequence is shorter than the
window every position is undefined. -/
theorem C3_rolling_mean_values (prices : List ℚ) (window : ℕ) (hw : 0 < window)
    (i : ℕ) (hi : i < prices.length) :
    (i + 1 < window → (rollingMean prices window).getD i none = none) ∧
    (window ≤ i + 1 →
      (windowSlice prices window i).length = window ∧
      (rollingMean prices window).getD i none =
        some ((windowSlice prices window i).sum / (windowSlice prices window i).length)) ∧
    (prices.length < window → (rollingMean prices window).getD i none = none) := by
  have hundef : i + 1 < window → (rollingMean prices window).getD i none = none := by
    intro hlt
    rw [rollingMean_getD prices window i hi, if_neg (by omega)]
  refine ⟨hundef, ?_, fun hN => hundef (by omega)⟩
  intro hge
  have hlen := windowSlice_length prices window i hge hi
  refine ⟨hlen, ?_⟩
  rw [rollingMean_getD prices window i hi, if_pos ⟨hw, hge⟩,
    take_sub_sum prices window i hge, hlen]

/-- Witness for C3 at `prices = [1, 2, 3]`, `window = 2`, `i = 1`: the
entry is the mean of `[1, 2]`. -/
theorem C3_witness : (rollingMean [1, 2, 3] 2).getD 1 none = some (3 / 2) := by
  have h := (C3_rolling_mean_values [1, 2, 3] 2 (by norm_num) 1 (by norm_num)).2.1 (by norm_num)
  rw [h.2]
  norm_num [windowSlice]

/-- C7: for every price sequence and positive short and long windows, the
two rolling-average sequences have exactly the length of the input, and
an empty input yields empty outputs. -/
theorem C7_rolling_mean_length (strat : MovingAverageCrossoverStrategy) (prices : List ℚ)
    (hs : 0 < strat.short_window) (hl : 0 < strat.long_window) :
    ((calculate_moving_averages strat prices).1.length = prices.length ∧
      (calculate_moving_averages strat prices).2.length = prices.length) ∧
    (prices = [] →
      (calculate_moving_averages strat prices).1 = [] ∧
      (calculate_moving_averages strat prices).2 = []) := by
  refine ⟨⟨rollingMean_length prices strat.short_window,
    rollingMean_length prices strat.long_window⟩, ?_⟩
  rintro rfl
  simp [calculate_moving_averages, rollingMean]

/-- Witness for C7 at the strategy `(2, 3)` over `[5, 6]`. -/
theorem C7_witness :
    (calculate_moving_averages ⟨2, 3⟩ [5, 6]).1.length = 2 ∧
    (calculate_moving_averages ⟨2, 3⟩ [5, 6]).2.length = 2 := by
  have h := (C7_rolling_mean_length ⟨2, 3⟩ [5, 6] (by norm_num) (by norm_num)).1
  simpa using h

/-- C8 counterexample: `window = 0` satisfies `window <= 0` but the
rolling-average calculator does not fail: pandas validates only
`window >= 0`, so the call returns an ordinary all-undefined column. -/
theorem C8_counterexample :
    rollingMeanChecked [1, 2, 3] 0 = Except.ok [none, none, none] := by
  rfl

/-- C8 amended: a negative window fails fast with pandas'
invalid-parameter `ValueError`, but `window = 0` is accepted and returns
a same-length all-undefined sequence (the window is never clamped). -/
theorem C8_amended (prices : List ℚ) (w : ℤ) :
    (w < 0 → rollingMeanChecked prices w =
      Except.error "window must be an integer 0 or greater") ∧
    (w = 0 → rollingMeanChecked prices w =
      Except.ok (List.replicate prices.length none)) := by
  constructor
  · intro hw
    unfold rollingMeanChecked
    rw [if_pos hw]
  · rintro rfl
    unfold rollingMeanChecked
    rw [if_neg (lt_irrefl 0)]
    congr 1
    apply List.ext_getElem
    · simp [rollingMean]
    · intro i h1 h2
      simp [rollingMean]

/-- Witness for C8's amended claim at `window = -1` and `window = 0`. -/
theorem C8_amended_witness :
    rollingMeanChecked [(1 : ℚ), 2] (-1) =
      Except.error "window must be an integer 0 or greater" ∧
    rollingMeanChecked [(1 : ℚ), 2] 0 = Except.ok [none, none] := by
  refine ⟨(C8_amended [1, 2] (-1)).1 (by norm_num), ?_⟩
  rw [(C8_amended [1, 2] 0).2 rfl]
  rfl

/-- C4: the signal generator returns the empty list when fewer than
`long_window` points are supplied (a policy, not an error), and otherwise
annotates every input point, so the output length equals the input
length. -/
theorem C4_signal_count (strat : MovingAverageCrossoverStrategy) (td : List TickerData) :
    (td.length < strat.long_window → generate_signals strat td = []) ∧
    (strat.long_window ≤ td.length → (generate_signals strat td).length = td.length) :=
  ⟨fun h => generate_signals_of_lt strat td h, fun h => generate_signals_length strat td h⟩

/-- Witness for C4: one point with `long_window = 2` yields no signals;
three points yield three signals. -/
theorem C4_witness :
    generate_signals ⟨1, 2⟩ [⟨0, 1⟩] = [] ∧
    (generate_signals ⟨1, 2⟩ [⟨0, 1⟩, ⟨1, 2⟩, ⟨2, 3⟩]).length = 3 := by
  constructor
  · exact (C4_signal_count ⟨1, 2⟩ [⟨0, 1⟩]).1 (by norm_num)
  · have h := (C4_signal_count ⟨1, 2⟩ [⟨0, 1⟩, ⟨1, 2⟩, ⟨2, 3⟩]).2 (by norm_num)
    simpa using h

/-- Shorthand for the rolling average of the close prices of a ticker
series, indexed like the signal list (used to state the crossover
claims). -/
def maAt (td : List TickerData) (window i : ℕ) : Option ℚ :=
  (rollingMean (td.map TickerData.close) window).getD i none

lemma generate_signals_getD_signal (strat : MovingAverageCrossoverStrategy)
    (td : List TickerData) (h : strat.long_window ≤ td.length) (i : ℕ)
    (hi : i < td.length) :
    ((generate_signals strat td).getD i dummySignal).signal =
      signalTag i (maAt td strat.short_window i) (maAt td strat.long_window i)
        (if i = 0 then none else maAt td strat.short_window (i - 1))
        (if i = 0 then none else maAt td strat.long_window (i - 1)) := by
  rw [generate_signals_getD strat td h i hi]
  rfl

/-- C2: for an input of length at least `long_window` (with
`0 < short_window ≤ long_window`), the tag at index `i` is BUY iff
`i > 0`, all four of the current and previous short/long averages are
defined, the short average is strictly above the long one now and was at
or below it at the previous point; SELL iff the symmetric condition
holds; and at `i = 0` or whenever any of the four averages is undefined
the tag is HOLD. -/
theorem C2_crossover_tags (strat : MovingAverageCrossoverStrategy) (td : List TickerData)
    (hs : 0 < strat.short_window) (hsl : strat.short_window ≤ strat.long_window)
    (hlen : strat.long_window ≤ td.length) (i : ℕ) (hi : i < td.length) :
    (((generate_signals strat td).getD i dummySignal).signal = "BUY" ↔
      0 < i ∧ ∃ a b a' b',
        maAt td strat.short_window i = some a ∧ maAt td strat.long_window i = some b ∧
        maAt td strat.short_window (i - 1) = some a' ∧
        maAt td strat.long_window (i - 1) = some b' ∧ b < a ∧ a' ≤ b') ∧
    (((generate_signals strat td).getD i dummySignal).signal = "SELL" ↔
      0 < i ∧ ∃ a b a' b',
        maAt td strat.short_window i = some a ∧ maAt td strat.long_window i = some b ∧
        maAt td strat.short_window (i - 1) = some a' ∧
        maAt td strat.long_window (i - 1) = some b' ∧ a < b ∧ b' ≤ a') ∧
    ((i = 0 ∨ maAt td strat.short_window i = none ∨ maAt td strat.long_window i = none ∨
        maAt td strat.short_window (i - 1) = none ∨
        maAt td strat.long_window (i - 1) = none) →
      ((generate_signals strat td).getD i dummySignal).signal = "HOLD") := by
  rw [generate_signals_getD_signal strat td hlen i hi]
  by_cases h0 : i = 0
  · subst h0
    rw [if_pos rfl, if_pos rfl]
    refine ⟨?_, ?_, ?_⟩
    · rw [signalTag_eq_buy]
      simp
    · rw [signalTag_eq_sell]
      simp
    · intro _
      exact signalTag_hold_of 0 _ _ _ _ (Or.inl rfl)
  · rw [if_neg h0, if_neg h0]
    refine ⟨?_, ?_, ?_⟩
    · rw [signalTag_eq_buy]
    · rw [signalTag_eq_sell]
    · intro hc
      exact signalTag_hold_of i _ _ _ _ hc

/-- Witness for C2: with windows `(1, 2)` over closes `[2, 2, 3]` the tag
at index 2 is BUY (short 3 above long 5/2 now, short 2 equal to long 2
before). -/
theorem C2_witness :
    ((generate_signals ⟨1, 2⟩ [⟨0, 2⟩, ⟨1, 2⟩, ⟨2, 3⟩]).getD 2 dummySignal).signal = "BUY" := by
  apply (C2_crossover_tags ⟨1, 2⟩ [⟨0, 2⟩, ⟨1, 2⟩, ⟨2, 3⟩] (by norm_num) (by norm_num)
    (by norm_num) 2 (by norm_num)).1.mpr
  refine ⟨by norm_num, 3, 5 / 2, 2, 2, ?_, ?_, ?_, ?_, by norm_num, le_refl 2⟩ <;>
    norm_num [maAt, rollingMean, List.range_succ]

/-- C9: the signal generator never tags two consecutive points BUY, nor
two consecutive points SELL: a BUY at `i` forces the short average
strictly above the long average at `i`, which falsifies the
previous-point condition of a BUY at `i + 1`, and symmetrically for
SELL. -/
theorem C9_no_consecutive_signals (strat : MovingAverageCrossoverStrategy)
    (td : List TickerData) (i : ℕ)
    (h : i + 1 < (generate_signals strat td).length) :
    ¬(((generate_signals strat td).getD i dummySignal).signal = "BUY" ∧
      ((generate_signals strat td).getD (i + 1) dummySignal).signal = "BUY") ∧
    ¬(((generate_signals strat td).getD i dummySignal).signal = "SELL" ∧
      ((generate_signals strat td).getD (i + 1) dummySignal).signal = "SELL") := by
  have hlen : strat.long_window ≤ td.length := by
    by_contra hcon
    rw [generate_signals_of_lt strat td (Nat.lt_of_not_le hcon)] at h
    simp at h
  rw [generate_signals_length strat td hlen] at h
  have hi : i < td.length := by omega
  rw [generate_signals_getD_signal strat td hlen i hi,
    generate_signals_getD_signal strat td hlen (i + 1) h]
  have hne : ¬(i + 1 = 0) := by omega
  constructor
  · rintro ⟨hb1, hb2⟩
    rw [signalTag_eq_buy] at hb1 hb2
    rw [if_neg hne, if_neg hne] at hb2
    simp only [Nat.add_sub_cancel] at hb2
    obtain ⟨-, a, b, a0, b0, hsa, hlb, -, -, hba, -⟩ := hb1
    obtain ⟨-, a2, b2, a', b', -, -, hpa, hpb, -, hab'⟩ := hb2
    rw [hsa] at hpa
    rw [hlb] at hpb
    have ha : a = a' := Option.some.inj hpa
    have hb : b = b' := Option.some.inj hpb
    subst ha hb
    linarith
  · rintro ⟨hb1, hb2⟩
    rw [signalTag_eq_sell] at hb1 hb2
    rw [if_neg hne, if_neg hne] at hb2
    simp only [Nat.add_sub_cancel] at hb2
    obtain ⟨-, a, b, a0, b0, hsa, hlb, -, -, hba, -⟩ := hb1
    obtain ⟨-, a2, b2, a', b', -, -, hpa, hpb, -, hab'⟩ := hb2
    rw [hsa] at hpa
    rw [hlb] at hpb
    have ha : a = a' := Option.some.inj hpa
    have hb : b = b' := Option.some.inj hpb
    subst ha hb
    linarith

/-- Witness for C9 at windows `(1, 2)`, closes `[2, 2, 3]`, indices 1 and
2. -/
theorem C9_witness :
    ¬(((generate_signals ⟨1, 2⟩ [⟨0, 2⟩, ⟨1, 2⟩, ⟨2, 3⟩]).getD 1 dummySignal).signal = "BUY" ∧
      ((generate_signals ⟨1, 2⟩ [⟨0, 2⟩, ⟨1, 2⟩, ⟨2, 3⟩]).getD 2 dummySignal).signal = "BUY") ∧
    ¬(((generate_signals ⟨1, 2⟩ [⟨0, 2⟩, ⟨1, 2⟩, ⟨2, 3⟩]).getD 1 dummySignal).signal = "SELL" ∧
      ((generate_signals ⟨1, 2⟩ [⟨0, 2⟩, ⟨1, 2⟩, ⟨2, 3⟩]).getD 2 dummySignal).signal = "SELL") := by
  apply C9_no_consecutive_signals ⟨1, 2⟩ [⟨0, 2⟩, ⟨1, 2⟩, ⟨2, 3⟩] 1
  rw [generate_signals_length ⟨1, 2⟩ _ (by norm_num)]
  norm_num

/-- C5: the reported `total_returns` is 100 times the plain (uncompounded)
sum of `(exit - entry) / entry` over the completed BUY→SELL trades, the
winning-trade counter counts exactly the completed trades with positive
return, and a trade entered at 100 and exited at 110 has return `1/10`,
which is positive (so it counts as winning). -/
theorem C5_total_returns_sum (sigs : List MovingAverageSignal) :
    (calculate_performance sigs).total_returns =
      100 * ((completedTrades sigs).map tradeReturn).sum ∧
    (simulate sigs).winning_trades =
      ((completedTrades sigs).filter fun t => decide (0 < tradeReturn t)).length ∧
    tradeReturn (100, 110) = 1 / 10 ∧ (0 : ℚ) < tradeReturn (100, 110) := by
  refine ⟨?_, ?_, by norm_num [tradeReturn], by norm_num [tradeReturn]⟩
  · by_cases h : sigs = []
    · subst h
      simp [calculate_performance, completedTrades, tradesFrom]
    · rw [calculate_performance_def sigs h]
      show (simulate sigs).total_returns * 100 = _
      unfold simulate
      rw [foldl_simStep_total_returns sigs initState]
      simp only [initState, completedTrades]
      ring
  · unfold simulate
    rw [foldl_simStep_winning sigs initState]
    simp [initState, completedTrades]

/-- C1 counterexample: one unmatched BUY at price 100 produces
`total_trades = 1`, while the same sequence with the BUY replaced by HOLD
produces `total_trades = 0` — the trade counter is incremented at entry
time, so an open position does contribute to a reported statistic. -/
theorem C1_counterexample :
    (calculate_performance [⟨0, 100, none, none, "BUY"⟩]).total_trades ≠
      (calculate_performance [⟨0, 100, none, none, "HOLD"⟩]).total_trades := by
  rw [calculate_performance_def _ (by simp), calculate_performance_def _ (by simp)]
  show (simulate [⟨0, 100, none, none, "BUY"⟩]).trades ≠
    (simulate [⟨0, 100, none, none, "HOLD"⟩]).trades
  rw [show simulate [⟨0, 100, none, none, "BUY"⟩] = simStep initState ⟨0, 100, none, none, "BUY"⟩
      from rfl,
    show simulate [⟨0, 100, none, none, "HOLD"⟩] = simStep initState ⟨0, 100, none, none, "HOLD"⟩
      from rfl,
    simStep_buy initState _ ⟨rfl, rfl⟩,
    simStep_skip initState _ (by simp [initState]) (by simp [initState])]
  simp [initState]

/-- C1 amended: a trailing BUY that opens a position (the simulator is
flat when it arrives) contributes nothing to the winning-trade count, the
total returns, or the portfolio-value trajectory — exactly as if it were
HOLD — but it does increment the total trade count by one (and therefore
lowers the reported win rate, whose denominator it enters); a trailing
BUY arriving while already long is ignored entirely. -/
theorem C1_amended (s : List MovingAverageSignal) (d : ℕ) (p : ℚ) (sm lm : Option ℚ) :
    (simulate (s ++ [⟨d, p, sm, lm, "BUY"⟩])).winning_trades =
      (simulate (s ++ [⟨d, p, sm, lm, "HOLD"⟩])).winning_trades ∧
    (simulate (s ++ [⟨d, p, sm, lm, "BUY"⟩])).total_returns =
      (simulate (s ++ [⟨d, p, sm, lm, "HOLD"⟩])).total_returns ∧
    (simulate (s ++ [⟨d, p, sm, lm, "BUY"⟩])).portfolio_values =
      (simulate (s ++ [⟨d, p, sm, lm, "HOLD"⟩])).portfolio_values ∧
    (simulate (s ++ [⟨d, p, sm, lm, "BUY"⟩])).trades =
      (simulate (s ++ [⟨d, p, sm, lm, "HOLD"⟩])).trades +
        (if (simulate s).position = false then 1 else 0) := by
  unfold simulate
  rw [List.foldl_append, List.foldl_append]
  simp only [List.foldl_cons, List.foldl_nil]
  have hhold : simStep (s.foldl simStep initState) ⟨d, p, sm, lm, "HOLD"⟩ =
      s.foldl simStep initState :=
    simStep_skip _ _ (by simp) (by simp)
  rw [hhold]
  by_cases hpos : (s.foldl simStep initState).position = false
  · rw [simStep_buy _ _ ⟨rfl, hpos⟩, if_pos hpos]
    exact ⟨rfl, rfl, rfl, rfl⟩
  · rw [simStep_skip _ _ (fun hc => hpos hc.2) (by simp), if_neg hpos]
    exact ⟨rfl, rfl, rfl, rfl⟩

/-- C10: when every signal price is strictly positive, every entry of the
portfolio-value trajectory is strictly positive, the running peak of the
drawdown pass is strictly positive (hence nonzero) after any number of
steps, and the reported `max_drawdown` lies in `[0, 100)`. -/
theorem C10_drawdown_safety (sigs : List MovingAverageSignal)
    (hpos : ∀ s ∈ sigs, 0 < s.price) :
    (∀ v ∈ (simulate sigs).portfolio_values, 0 < v) ∧
    (∀ k : ℕ,
      0 < (((simulate sigs).portfolio_values.take k).foldl ddStep
        ((simulate sigs).portfolio_values.headD 0, 0)).1) ∧
    0 ≤ (calculate_performance sigs).max_drawdown ∧
    (calculate_performance sigs).max_drawdown < 100 := by
  obtain ⟨hne, hall⟩ : (simulate sigs).portfolio_values ≠ [] ∧
      ∀ v ∈ (simulate sigs).portfolio_values, 0 < v :=
    foldl_simStep_pv sigs initState hpos (by simp [initState])
      (by simp [initState])
      (fun v hv => by simp [initState] at hv; subst hv; norm_num)
  have hhead : 0 < (simulate sigs).portfolio_values.headD 0 := by
    rw [List.headD_eq_head?, List.head?_eq_head hne]
    exact hall _ (List.head_mem hne)
  have hdd : 0 ≤ maxDrawdown (simulate sigs).portfolio_values ∧
      maxDrawdown (simulate sigs).portfolio_values < 1 := by
    have hb := foldl_ddStep_bounds (simulate sigs).portfolio_values
      ((simulate sigs).portfolio_values.headD 0) 0 hhead le_rfl one_pos hall
    exact ⟨hb.2.1, hb.2.2⟩
  refine ⟨hall, fun k => (foldl_ddStep_bounds _ _ _ hhead le_rfl one_pos
    (fun v hv => hall v (List.mem_of_mem_take hv))).1, ?_, ?_⟩
  · by_cases h : sigs = []
    · subst h
      norm_num [calculate_performance]
    · rw [calculate_performance_def sigs h]
      show (0 : ℚ) ≤ maxDrawdown _ * 100
      exact mul_nonneg hdd.1 (by norm_num)
  · by_cases h : sigs = []
    · subst h
      norm_num [calculate_performance]
    · rw [calculate_performance_def sigs h]
      show maxDrawdown _ * 100 < 100
      linarith [hdd.2]

/-- Witness for C10 over a sequence with one completed losing trade. -/
theorem C10_witness :
    0 ≤ (calculate_performance
        [⟨0, 100, none, none, "BUY"⟩, ⟨1, 90, none, none, "SELL"⟩]).max_drawdown ∧
    (calculate_performance
        [⟨0, 100, none, none, "BUY"⟩, ⟨1, 90, none, none, "SELL"⟩]).max_drawdown < 100 := by
  have h := C10_drawdown_safety
    [⟨0, 100, none, none, "BUY"⟩, ⟨1, 90, none, none, "SELL"⟩]
    (by intro s hs; simp only [List.mem_cons, List.not_mem_nil, or_false] at hs
        rcases hs with rfl | rfl <;> norm_num)
  exact ⟨h.2.2.1, h.2.2.2⟩

/-- C6: the reported Sharpe ratio is `0` when the portfolio trajectory
has fewer than two entries, and otherwise is the mean of the per-step
fractional changes between consecutive trajectory entries divided by
their population standard deviation, with `0` when that deviation is
zero — as stated by `sharpeSpec`. -/
theorem C6_sharpe_matches_spec (sigs : List MovingAverageSignal) :
    (calculate_performance sigs).sharpe = sharpeSpec ((simulate sigs).portfolio_values) := by
  by_cases h : sigs = []
  · subst h
    have h1 : (simulate ([] : List MovingAverageSignal)).portfolio_values = [10000] := rfl
    rw [h1]
    have h2 : sharpeSpec [10000] = 0 := by
      unfold sharpeSpec
      rw [if_pos (by simp)]
    rw [h2]
    rfl
  · rw [calculate_performance_def sigs h]
    exact sharpeCode_eq_sharpeSpec _
